import Mathlib

/-!
Verification of the response-normalization and rendering contract of the
AI-Cost-Optimization-Advisor chat UI (files
`src/components/ChatInterfaceWithSidebar.tsx` and
`src/components/DashboardRenderer.tsx`).

JavaScript runtime values that can flow through the component are modelled by
`JsValue` (pure JSON values; strings are lists of characters).  `undefined`
and thrown `TypeError`s are modelled at the access points where they can
arise (`JsField`).  `JSON.parse` / `JSON.stringify` are modelled by an
executable parser/printer pair over `List Char`; the printer follows
`JSON.stringify` (no whitespace, keys in insertion order, `"`/`\`/control
characters escaped), and the parser is a recursive-descent JSON reader.
Simplifications of the platform primitives, noted where they occur: numbers
are integers, `\uXXXX` escapes and insignificant whitespace are not modelled.
-/

/-- JavaScript strings, modelled as lists of characters. -/
abbrev JStr := List Char

/-- Characters of a Lean string literal. -/
def chars (s : String) : JStr := s.toList

/-- A JSON value (the result of a successful `JSON.parse`).  Object fields
keep insertion order; duplicate keys are kept (lookup is last-wins, as in
JavaScript). -/
inductive JsValue where
  | null : JsValue
  | bool : Bool → JsValue
  | num : Int → JsValue
  | str : JStr → JsValue
  | arr : List JsValue → JsValue
  | obj : List (JStr × JsValue) → JsValue

/-- JavaScript truthiness of a value (`null`, `false`, `0` and `""` are
falsy; objects and arrays are always truthy). -/
def truthy : JsValue → Bool
  | .null => false
  | .bool b => b
  | .num n => decide (n ≠ 0)
  | .str s => decide (s ≠ [])
  | .arr _ => true
  | .obj _ => true

/-- Result of a JavaScript property access `v.k`: a `TypeError` (access on
`null`), `undefined` (missing field or access on a primitive), or a value. -/
inductive JsField where
  | throwsF : JsField
  | undefF : JsField
  | valF : JsValue → JsField

/-- Truthiness of a property-access result (`undefined` is falsy; a thrown
access is never asked for truthiness on a live path). -/
def truthyF : JsField → Bool
  | .throwsF => false
  | .undefF => false
  | .valF v => truthy v

/-- Last-wins field lookup, as `JSON.parse` exposes duplicate keys. -/
def lookupField (l : List (JStr × JsValue)) (k : JStr) : Option JsValue :=
  l.foldl (fun acc p => if p.1 = k then some p.2 else acc) none

/-- Property access `v.k`: throws on `null`, yields `undefined` on
primitives and arrays, looks the field up on objects. -/
def getF : JsValue → JStr → JsField
  | .null, _ => .throwsF
  | .obj l, k =>
      match lookupField l k with
      | some v => .valF v
      | none => .undefF
  | _, _ => .undefF

/-- The JavaScript `a || b` idiom on a property access (used for
`data.module_outputs || {}`). -/
def jsOr (f : JsField) (d : JsValue) : JsValue :=
  match f with
  | .valF v => if truthy v then v else d
  | _ => d

/-- Extract the value of a truthy access (only used after a `truthyF`
check, which guarantees the `valF` case). -/
def JsField.valOf : JsField → JsValue
  | .valF v => v
  | _ => .null

/-- Opening brace character. -/
def braceO : Char := Char.ofNat 0x7B

/-- Closing brace character. -/
def braceC : Char := Char.ofNat 0x7D

/-- Escaping of one string character by `JSON.stringify` (the quote, the
backslash and the common control characters; `\uXXXX` forms are not
modelled). -/
def escapeChar (c : Char) : JStr :=
  if c = '"' then ['\\', '"']
  else if c = '\\' then ['\\', '\\']
  else if c = '\n' then ['\\', 'n']
  else if c = '\t' then ['\\', 't']
  else if c = '\r' then ['\\', 'r']
  else [c]

/-- Escaping of a string body by `JSON.stringify`. -/
def escapeStr : JStr → JStr
  | [] => []
  | c :: cs => escapeChar c ++ escapeStr cs

/-- Decimal digit character. -/
def digitCh (d : Nat) : Char := Char.ofNat (48 + d)

/-- Big-endian decimal digits of a natural number. -/
def printNat (n : Nat) : JStr :=
  if n < 10 then [digitCh n]
  else printNat (n / 10) ++ [digitCh (n % 10)]
termination_by n
decreasing_by exact Nat.div_lt_self (by omega) (by omega)

/-- Decimal form of an integer, as `JSON.stringify` prints it. -/
def printInt (i : Int) : JStr :=
  if i < 0 then '-' :: printNat i.natAbs else printNat i.natAbs

mutual

/-- Printing of a value by `JSON.stringify`: no whitespace, fields in insertion order. -/
def stringifyVal : JsValue → JStr
  | .null => chars ("null")
  | .bool true => chars ("true")
  | .bool false => chars ("false")
  | .num n => printInt n
  | .str s => '"' :: (escapeStr s ++ ['"'])
  | .arr [] => ['[', ']']
  | .arr (v :: vs) => '[' :: (stringifyArr (v :: vs) ++ [']'])
  | .obj [] => [braceO, braceC]
  | .obj (m :: ms) => braceO :: (stringifyObj (m :: ms) ++ [braceC])

/-- Comma-separated array elements. -/
def stringifyArr : List JsValue → JStr
  | [] => []
  | [v] => stringifyVal v
  | v :: w :: vs => stringifyVal v ++ ',' :: stringifyArr (w :: vs)

/-- Comma-separated object members. -/
def stringifyObj : List (JStr × JsValue) → JStr
  | [] => []
  | [(k, v)] => '"' :: (escapeStr k ++ '"' :: ':' :: stringifyVal v)
  | (k, v) :: m2 :: ms =>
      ('"' :: (escapeStr k ++ '"' :: ':' :: stringifyVal v)) ++
        ',' :: stringifyObj (m2 :: ms)

end

/-- Inverse of `escapeChar` on the character after a backslash. -/
def unescChar (c : Char) : Option Char :=
  if c = '"' then some '"'
  else if c = '\\' then some '\\'
  else if c = '/' then some '/'
  else if c = 'n' then some '\n'
  else if c = 't' then some '\t'
  else if c = 'r' then some '\r'
  else none

/-- Read a JSON string body up to the closing quote (the opening quote has
already been consumed); returns the decoded string and the input after the
closing quote. -/
def parseJStr : JStr → Option (JStr × JStr)
  | [] => none
  | c :: rest =>
    if c = '"' then some ([], rest)
    else if c = '\\' then
      match rest with
      | [] => none
      | e :: rest2 =>
        match unescChar e with
        | none => none
        | some d =>
          match parseJStr rest2 with
          | none => none
          | some (s, r) => some (d :: s, r)
    else
      match parseJStr rest with
      | none => none
      | some (s, r) => some (c :: s, r)

/-- Decimal digit test. -/
def isDigitC (c : Char) : Bool := decide (48 ≤ c.toNat ∧ c.toNat ≤ 57)

/-- Split off the longest digit run. -/
def takeDigits : JStr → (JStr × JStr)
  | [] => ([], [])
  | c :: rest =>
    if isDigitC c then
      let p := takeDigits rest
      (c :: p.1, p.2)
    else ([], c :: rest)

/-- Value of a big-endian digit run. -/
def readNat (l : JStr) : Nat := l.foldl (fun a c => a * 10 + (c.toNat - 48)) 0

/-- Read a nonempty digit run as a natural number. -/
def parsePosNum (cs : JStr) : Option (Nat × JStr) :=
  let p := takeDigits cs
  if p.1 = [] then none else some (readNat p.1, p.2)

/-- Read a JSON number (integer form). -/
def parseNum (cs : JStr) : Option (JsValue × JStr) :=
  match cs with
  | [] => none
  | c :: rest =>
    if c = '-' then
      match parsePosNum rest with
      | none => none
      | some (n, r) => some (.num (-(n : Int)), r)
    else
      match parsePosNum (c :: rest) with
      | none => none
      | some (n, r) => some (.num (n : Int), r)

/-- Consume an expected literal tail (for `true` / `false` / `null`). -/
def expectLit : JStr → JStr → Option JStr
  | [], cs => some cs
  | _ :: _, [] => none
  | l :: ls, c :: cs => if c = l then expectLit ls cs else none

mutual

/-- Recursive-descent JSON value reader (fuelled; `jparse` supplies enough
fuel for any input).  Insignificant whitespace is not modelled: the
stringifier never emits it and no stored content relevant here contains
it. -/
def parseVal : Nat → JStr → Option (JsValue × JStr)
  | 0, _ => none
  | fuel + 1, cs =>
    match cs with
    | [] => none
    | c :: rest =>
      if c = '"' then
        match parseJStr rest with
        | none => none
        | some (s, r) => some (.str s, r)
      else if c = braceO then
        match rest with
        | [] => none
        | d :: r2 =>
          if d = braceC then some (.obj [], r2)
          else
            match parseMembers fuel (d :: r2) with
            | none => none
            | some (ms, r) => some (.obj ms, r)
      else if c = '[' then
        match rest with
        | [] => none
        | d :: r2 =>
          if d = ']' then some (.arr [], r2)
          else
            match parseElems fuel (d :: r2) with
            | none => none
            | some (vs, r) => some (.arr vs, r)
      else if c = 't' then
        match expectLit ['r', 'u', 'e'] rest with
        | none => none
        | some r => some (.bool true, r)
      else if c = 'f' then
        match expectLit ['a', 'l', 's', 'e'] rest with
        | none => none
        | some r => some (.bool false, r)
      else if c = 'n' then
        match expectLit ['u', 'l', 'l'] rest with
        | none => none
        | some r => some (.null, r)
      else parseNum (c :: rest)

/-- Array elements after `[`, up to and including `]`. -/
def parseElems : Nat → JStr → Option (List JsValue × JStr)
  | 0, _ => none
  | fuel + 1, cs =>
    match parseVal fuel cs with
    | none => none
    | some (v, r1) =>
      match r1 with
      | [] => none
      | d :: r2 =>
        if d = ',' then
          match parseElems fuel r2 with
          | none => none
          | some (vs, r) => some (v :: vs, r)
        else if d = ']' then some ([v], r2)
        else none

/-- Object members after the opening brace, up to and including the closing
brace. -/
def parseMembers : Nat → JStr → Option (List (JStr × JsValue) × JStr)
  | 0, _ => none
  | fuel + 1, cs =>
    match cs with
    | [] => none
    | c :: rest =>
      if c = '"' then
        match parseJStr rest with
        | none => none
        | some (k, r1) =>
          match r1 with
          | [] => none
          | d :: r2 =>
            if d = ':' then
              match parseVal fuel r2 with
              | none => none
              | some (v, r3) =>
                match r3 with
                | [] => none
                | e :: r4 =>
                  if e = ',' then
                    match parseMembers fuel r4 with
                    | none => none
                    | some (ms, r) => some ((k, v) :: ms, r)
                  else if e = braceC then some ([(k, v)], r4)
                  else none
            else none
      else none

end

/-- Model of `JSON.parse`: whole-input read (trailing characters reject, as in
JavaScript). -/
def jparse (cs : JStr) : Option JsValue :=
  match parseVal (cs.length + 1) cs with
  | some (v, []) => some v
  | _ => none


/-- Consuming an expected literal succeeds on exactly that literal. -/
theorem expectLit_self (ls rest : JStr) : expectLit ls (ls ++ rest) = some rest := by
  induction ls with
  | nil => rfl
  | cons c cs ih => simp [expectLit, ih]

theorem parseJStr_quote (rest : JStr) : parseJStr ('"' :: rest) = some ([], rest) := by
  rw [parseJStr.eq_def]; simp

theorem parseJStr_esc (e d : Char) (rest : JStr) (he : unescChar e = some d) :
    parseJStr ('\\' :: e :: rest) =
      match parseJStr rest with
      | none => none
      | some (s, r) => some (d :: s, r) := by
  rw [parseJStr.eq_def]; simp [he]

theorem parseJStr_plain (c : Char) (rest : JStr) (h1 : c ≠ '"') (h2 : c ≠ '\\') :
    parseJStr (c :: rest) =
      match parseJStr rest with
      | none => none
      | some (s, r) => some (c :: s, r) := by
  rw [parseJStr.eq_def]; simp [h1, h2]

theorem parseJStr_escape (s rest : JStr) :
    parseJStr (escapeStr s ++ '"' :: rest) = some (s, rest) := by
  induction s with
  | nil =>
    show parseJStr ([] ++ '"' :: rest) = _
    rw [List.nil_append, parseJStr_quote]
  | cons c cs ih =>
    show parseJStr ((escapeChar c ++ escapeStr cs) ++ '"' :: rest) = _
    rw [List.append_assoc]
    by_cases h1 : c = '"'
    · subst h1
      rw [show escapeChar '"' = ['\\', '"'] from rfl]
      simp only [List.cons_append, List.nil_append]
      rw [parseJStr_esc '"' '"' _ (by decide), ih]
    · by_cases h2 : c = '\\'
      · subst h2
        rw [show escapeChar '\\' = ['\\', '\\'] from rfl]
        simp only [List.cons_append, List.nil_append]
        rw [parseJStr_esc '\\' '\\' _ (by decide), ih]
      · by_cases h3 : c = '\n'
        · subst h3
          rw [show escapeChar '\n' = ['\\', 'n'] from rfl]
          simp only [List.cons_append, List.nil_append]
          rw [parseJStr_esc 'n' '\n' _ (by decide), ih]
        · by_cases h4 : c = '\t'
          · subst h4
            rw [show escapeChar '\t' = ['\\', 't'] from rfl]
            simp only [List.cons_append, List.nil_append]
            rw [parseJStr_esc 't' '\t' _ (by decide), ih]
          · by_cases h5 : c = '\r'
            · subst h5
              rw [show escapeChar '\r' = ['\\', 'r'] from rfl]
              simp only [List.cons_append, List.nil_append]
              rw [parseJStr_esc 'r' '\r' _ (by decide), ih]
            · rw [show escapeChar c = [c] from by
                simp [escapeChar, h1, h2, h3, h4, h5]]
              simp only [List.cons_append, List.nil_append]
              rw [parseJStr_plain c _ h1 h2, ih]

theorem digitCh_toNat (d : Nat) (h : d < 10) : (digitCh d).toNat = 48 + d := by
  interval_cases d <;> decide

theorem digitCh_isDigit (d : Nat) (h : d < 10) : isDigitC (digitCh d) = true := by
  interval_cases d <;> decide

theorem printNat_ne_nil (n : Nat) : printNat n ≠ [] := by
  rw [printNat]
  split <;> simp

theorem printNat_digits (n : Nat) : ∀ c ∈ printNat n, isDigitC c = true := by
  induction n using Nat.strong_induction_on with
  | _ n ih =>
    rw [printNat]
    split
    · next h => simpa using digitCh_isDigit n h
    · next h =>
      intro c hc
      rcases List.mem_append.mp hc with hc | hc
      · exact ih (n / 10) (Nat.div_lt_self (by omega) (by omega)) c hc
      · have : c = digitCh (n % 10) := by simpa using hc
        subst this
        exact digitCh_isDigit _ (Nat.mod_lt _ (by omega))

theorem readNat_append_digit (l : JStr) (c : Char) :
    readNat (l ++ [c]) = readNat l * 10 + (c.toNat - 48) := by
  simp [readNat, List.foldl_append]

theorem readNat_printNat (n : Nat) : readNat (printNat n) = n := by
  induction n using Nat.strong_induction_on with
  | _ n ih =>
    rw [printNat]
    split
    · next h =>
      simp [readNat, digitCh_toNat n h]
    · next h =>
      rw [readNat_append_digit, ih (n / 10) (Nat.div_lt_self (by omega) (by omega)),
        digitCh_toNat _ (Nat.mod_lt _ (by omega))]
      omega

def noDigitHead : JStr → Prop
  | [] => True
  | c :: _ => isDigitC c = false

theorem takeDigits_split (l rest : JStr) (hl : ∀ c ∈ l, isDigitC c = true)
    (hr : noDigitHead rest) : takeDigits (l ++ rest) = (l, rest) := by
  induction l with
  | nil =>
    cases rest with
    | nil => rfl
    | cons c r =>
      simp only [noDigitHead] at hr
      simp [takeDigits, hr]
  | cons c cs ih =>
    have hc := hl c (by simp)
    simp [takeDigits, hc, ih (fun d hd => hl d (by simp [hd]))]

theorem parsePosNum_print (n : Nat) (rest : JStr) (hr : noDigitHead rest) :
    parsePosNum (printNat n ++ rest) = some (n, rest) := by
  simp [parsePosNum, takeDigits_split _ _ (printNat_digits n) hr, printNat_ne_nil,
    readNat_printNat]

theorem digit_ne_all (c : Char) (h : isDigitC c = true) :
    c ≠ '"' ∧ c ≠ braceO ∧ c ≠ '[' ∧ c ≠ 't' ∧ c ≠ 'f' ∧ c ≠ 'n' ∧ c ≠ '-' ∧
      c ≠ ']' ∧ c ≠ braceC ∧ c ≠ ',' ∧ c ≠ ':' := by
  refine ⟨?_, ?_, ?_, ?_, ?_, ?_, ?_, ?_, ?_, ?_, ?_⟩ <;>
    (intro he; subst he; exact absurd h (by decide))

theorem parseNum_neg (cs : JStr) :
    parseNum ('-' :: cs) =
      match parsePosNum cs with
      | none => none
      | some (n, r) => some (.num (-(n : Int)), r) := by
  rw [parseNum.eq_def]; simp

theorem parseNum_pos (c : Char) (cs : JStr) (h : c ≠ '-') :
    parseNum (c :: cs) =
      match parsePosNum (c :: cs) with
      | none => none
      | some (n, r) => some (.num (n : Int), r) := by
  rw [parseNum.eq_def]; simp [h]

theorem parseNum_printInt (i : Int) (rest : JStr) (hr : noDigitHead rest) :
    parseNum (printInt i ++ rest) = some (.num i, rest) := by
  rw [printInt]
  by_cases hi : i < 0
  · rw [if_pos hi, List.cons_append, parseNum_neg, parsePosNum_print _ _ hr]
    simp [abs_of_neg hi]
  · rw [if_neg hi]
    cases hpn : printNat i.natAbs with
    | nil => exact absurd hpn (printNat_ne_nil _)
    | cons c t =>
      have hdg : isDigitC c = true := printNat_digits _ c (by rw [hpn]; simp)
      obtain ⟨-, -, -, -, -, -, h7, -, -, -, -⟩ := digit_ne_all c hdg
      have hp := parsePosNum_print i.natAbs rest hr
      rw [hpn] at hp
      rw [List.cons_append, parseNum_pos c _ h7, ← List.cons_append, hp]
      have h9 : ((i.natAbs : Nat) : Int) = i := by omega
      simp [h9]

theorem stringifyVal_len_pos (v : JsValue) : 1 ≤ (stringifyVal v).length := by
  cases v with
  | null => simp [stringifyVal, chars]
  | bool b => cases b <;> simp [stringifyVal, chars]
  | num n =>
    simp only [stringifyVal]
    rw [printInt]
    split
    · simp
    · simpa using List.length_pos.mpr (printNat_ne_nil _)
  | str s => simp [stringifyVal]
  | arr l => cases l <;> simp [stringifyVal]
  | obj l => cases l <;> simp [stringifyVal]

theorem stringifyVal_head (v : JsValue) :
    ∃ c t, stringifyVal v = c :: t ∧ c ≠ ']' ∧ c ≠ braceC := by
  cases v with
  | null => exact ⟨'n', _, rfl, by decide, by decide⟩
  | bool b =>
    cases b
    · exact ⟨'f', _, rfl, by decide, by decide⟩
    · exact ⟨'t', _, rfl, by decide, by decide⟩
  | num n =>
    simp only [stringifyVal]
    rw [printInt]
    split
    · exact ⟨'-', _, rfl, by decide, by decide⟩
    · cases hpn : printNat n.natAbs with
      | nil => exact absurd hpn (printNat_ne_nil _)
      | cons c t =>
        have hdg : isDigitC c = true := printNat_digits _ c (by rw [hpn]; simp)
        obtain ⟨-, -, -, -, -, -, -, h8, h9, -, -⟩ := digit_ne_all c hdg
        exact ⟨c, t, rfl, h8, h9⟩
  | str s => exact ⟨'"', _, rfl, by decide, by decide⟩
  | arr l =>
    cases l
    · exact ⟨'[', _, rfl, by decide, by decide⟩
    · exact ⟨'[', _, rfl, by decide, by decide⟩
  | obj l =>
    cases l
    · exact ⟨braceO, _, rfl, by decide, by decide⟩
    · exact ⟨braceO, _, rfl, by decide, by decide⟩

theorem stringifyArr_cons_head (v : JsValue) (vs : List JsValue) :
    ∃ c t, stringifyArr (v :: vs) = c :: t ∧ c ≠ ']' := by
  obtain ⟨c, t, hs, h1, h2⟩ := stringifyVal_head v
  cases vs with
  | nil => exact ⟨c, t, by simp [stringifyArr, hs], h1⟩
  | cons w ws =>
    exact ⟨c, t ++ ',' :: stringifyArr (w :: ws), by simp [stringifyArr, hs], h1⟩

theorem parseVal_cons (f : Nat) (c : Char) (cs : JStr) :
    parseVal (f + 1) (c :: cs) =
      (if c = '"' then
        match parseJStr cs with
        | none => none
        | some (s, r) => some (.str s, r)
      else if c = braceO then
        match cs with
        | [] => none
        | d :: r2 =>
          if d = braceC then some (.obj [], r2)
          else
            match parseMembers f (d :: r2) with
            | none => none
            | some (ms, r) => some (.obj ms, r)
      else if c = '[' then
        match cs with
        | [] => none
        | d :: r2 =>
          if d = ']' then some (.arr [], r2)
          else
            match parseElems f (d :: r2) with
            | none => none
            | some (vs, r) => some (.arr vs, r)
      else if c = 't' then
        match expectLit ['r', 'u', 'e'] cs with
        | none => none
        | some r => some (.bool true, r)
      else if c = 'f' then
        match expectLit ['a', 'l', 's', 'e'] cs with
        | none => none
        | some r => some (.bool false, r)
      else if c = 'n' then
        match expectLit ['u', 'l', 'l'] cs with
        | none => none
        | some r => some (.null, r)
      else parseNum (c :: cs)) := rfl

theorem parseElems_cons (f : Nat) (cs : JStr) :
    parseElems (f + 1) cs =
      (match parseVal f cs with
      | none => none
      | some (v, r1) =>
        match r1 with
        | [] => none
        | d :: r2 =>
          if d = ',' then
            match parseElems f r2 with
            | none => none
            | some (vs, r) => some (v :: vs, r)
          else if d = ']' then some ([v], r2)
          else none) := rfl

theorem parseMembers_cons (f : Nat) (cs : JStr) :
    parseMembers (f + 1) cs =
      (match cs with
      | [] => none
      | c :: rest =>
        if c = '"' then
          match parseJStr rest with
          | none => none
          | some (k, r1) =>
            match r1 with
            | [] => none
            | d :: r2 =>
              if d = ':' then
                match parseVal f r2 with
                | none => none
                | some (v, r3) =>
                  match r3 with
                  | [] => none
                  | e :: r4 =>
                    if e = ',' then
                      match parseMembers f r4 with
                      | none => none
                      | some (ms, r) => some ((k, v) :: ms, r)
                    else if e = braceC then some ([(k, v)], r4)
                    else none
              else none
        else none) := rfl

theorem charFacts1 : (('"' : Char) = braceO) = False := by decide

theorem charFacts2 : (braceO = '"') = False := by decide

theorem parseVal_quote (f : Nat) (cs : JStr) :
    parseVal (f + 1) ('"' :: cs) =
      match parseJStr cs with
      | none => none
      | some (s, r) => some (.str s, r) := by
  rw [parseVal_cons]; simp

theorem parseVal_null (f : Nat) (r : JStr) :
    parseVal (f + 1) ('n' :: 'u' :: 'l' :: 'l' :: r) = some (.null, r) := by
  rw [parseVal_cons]
  simp [expectLit, show (('n' : Char) = braceO) = False from by decide]

theorem parseVal_true (f : Nat) (r : JStr) :
    parseVal (f + 1) ('t' :: 'r' :: 'u' :: 'e' :: r) = some (.bool true, r) := by
  rw [parseVal_cons]
  simp [expectLit, show (('t' : Char) = braceO) = False from by decide]

theorem parseVal_false (f : Nat) (r : JStr) :
    parseVal (f + 1) ('f' :: 'a' :: 'l' :: 's' :: 'e' :: r) = some (.bool false, r) := by
  rw [parseVal_cons]
  simp [expectLit, show (('f' : Char) = braceO) = False from by decide]

theorem parseVal_obj_empty (f : Nat) (r2 : JStr) :
    parseVal (f + 1) (braceO :: braceC :: r2) = some (.obj [], r2) := by
  rw [parseVal_cons]
  simp [charFacts2]

theorem parseVal_obj_step (f : Nat) (d : Char) (r2 : JStr) (hd : d ≠ braceC) :
    parseVal (f + 1) (braceO :: d :: r2) =
      match parseMembers f (d :: r2) with
      | none => none
      | some (ms, r) => some (.obj ms, r) := by
  rw [parseVal_cons]
  simp [charFacts2, hd]

theorem parseVal_arr_empty (f : Nat) (r2 : JStr) :
    parseVal (f + 1) ('[' :: ']' :: r2) = some (.arr [], r2) := by
  rw [parseVal_cons]
  simp [show (('[' : Char) = braceO) = False from by decide]

theorem parseVal_arr_step (f : Nat) (d : Char) (r2 : JStr) (hd : d ≠ ']') :
    parseVal (f + 1) ('[' :: d :: r2) =
      match parseElems f (d :: r2) with
      | none => none
      | some (vs, r) => some (.arr vs, r) := by
  rw [parseVal_cons]
  simp [show (('[' : Char) = braceO) = False from by decide, hd]

theorem parseVal_num_route (f : Nat) (i : Int) (rest : JStr) :
    parseVal (f + 1) (printInt i ++ rest) = parseNum (printInt i ++ rest) := by
  rw [printInt]
  by_cases hi : i < 0
  · rw [if_pos hi, List.cons_append, parseVal_cons]
    simp [show (('-' : Char) = '"') = False from by decide,
      show (('-' : Char) = braceO) = False from by decide,
      show (('-' : Char) = '[') = False from by decide,
      show (('-' : Char) = 't') = False from by decide,
      show (('-' : Char) = 'f') = False from by decide,
      show (('-' : Char) = 'n') = False from by decide]
  · rw [if_neg hi]
    cases hpn : printNat i.natAbs with
    | nil => exact absurd hpn (printNat_ne_nil _)
    | cons c t =>
      have hdg : isDigitC c = true := printNat_digits _ c (by rw [hpn]; simp)
      obtain ⟨h1, h2, h3, h4, h5, h6, -, -, -, -, -⟩ := digit_ne_all c hdg
      rw [List.cons_append, parseVal_cons]
      simp [h1, h2, h3, h4, h5, h6]

theorem stringifyArr_len_pos (v : JsValue) (vs : List JsValue) :
    1 ≤ (stringifyArr (v :: vs)).length := by
  cases vs with
  | nil => simpa [stringifyArr] using stringifyVal_len_pos v
  | cons w ws =>
    have := stringifyVal_len_pos v
    simp [stringifyArr]
    omega

theorem stringifyObj_head (k : JStr) (v : JsValue) (ms : List (JStr × JsValue)) :
    ∃ t, stringifyObj ((k, v) :: ms) = '"' :: t := by
  cases ms with
  | nil => exact ⟨_, rfl⟩
  | cons m2 ms3 => exact ⟨_, rfl⟩

theorem stringifyObj_len_pos (k : JStr) (v : JsValue) (ms : List (JStr × JsValue)) :
    1 ≤ (stringifyObj ((k, v) :: ms)).length := by
  obtain ⟨t, ht⟩ := stringifyObj_head k v ms
  simp [ht]

theorem noDigitHead_cons (c : Char) (r : JStr) (h : isDigitC c = false) :
    noDigitHead (c :: r) := h

theorem parse_print_aux (fuel : Nat) :
    (∀ v rest, (stringifyVal v).length ≤ fuel → noDigitHead rest →
      parseVal fuel (stringifyVal v ++ rest) = some (v, rest)) ∧
    (∀ l rest, l ≠ [] → (stringifyArr l).length + 1 ≤ fuel →
      parseElems fuel (stringifyArr l ++ ']' :: rest) = some (l, rest)) ∧
    (∀ ms rest, ms ≠ [] → (stringifyObj ms).length + 1 ≤ fuel →
      parseMembers fuel (stringifyObj ms ++ braceC :: rest) = some (ms, rest)) := by
  induction fuel with
  | zero =>
    refine ⟨fun v rest hlen _ => absurd hlen (by have := stringifyVal_len_pos v; omega),
      fun l rest _ hlen => absurd hlen (by omega),
      fun ms rest _ hlen => absurd hlen (by omega)⟩
  | succ fuel ih =>
    obtain ⟨ih1, ih2, ih3⟩ := ih
    refine ⟨?_, ?_, ?_⟩
    · intro v rest hlen hnd
      cases v with
      | null =>
        show parseVal (fuel + 1) (['n', 'u', 'l', 'l'] ++ rest) = _
        simp only [List.cons_append, List.nil_append]
        exact parseVal_null fuel rest
      | bool b =>
        cases b
        · show parseVal (fuel + 1) (['f', 'a', 'l', 's', 'e'] ++ rest) = _
          simp only [List.cons_append, List.nil_append]
          exact parseVal_false fuel rest
        · show parseVal (fuel + 1) (['t', 'r', 'u', 'e'] ++ rest) = _
          simp only [List.cons_append, List.nil_append]
          exact parseVal_true fuel rest
      | num i =>
        show parseVal (fuel + 1) (printInt i ++ rest) = _
        rw [parseVal_num_route, parseNum_printInt i rest hnd]
      | str s =>
        show parseVal (fuel + 1) (('"' :: (escapeStr s ++ ['"'])) ++ rest) = _
        rw [show ('"' :: (escapeStr s ++ ['"'])) ++ rest
            = '"' :: (escapeStr s ++ '"' :: rest) from by simp]
        rw [parseVal_quote, parseJStr_escape]
      | arr l =>
        cases l with
        | nil =>
          show parseVal (fuel + 1) (['[', ']'] ++ rest) = _
          simp only [List.cons_append, List.nil_append]
          exact parseVal_arr_empty fuel rest
        | cons v vs =>
          show parseVal (fuel + 1) (('[' :: (stringifyArr (v :: vs) ++ [']'])) ++ rest) = _
          obtain ⟨c, t, hs, hc⟩ := stringifyArr_cons_head v vs
          have hlenv : (stringifyVal (.arr (v :: vs))).length
              = (stringifyArr (v :: vs)).length + 2 := by
            simp [stringifyVal]
          rw [show ('[' :: (stringifyArr (v :: vs) ++ [']'])) ++ rest
              = '[' :: (c :: (t ++ ']' :: rest)) from by rw [hs]; simp]
          rw [parseVal_arr_step fuel c _ hc]
          rw [show c :: (t ++ ']' :: rest) = stringifyArr (v :: vs) ++ ']' :: rest from by
            rw [hs]; simp]
          rw [ih2 (v :: vs) rest (by simp) (by omega)]
      | obj l =>
        cases l with
        | nil =>
          show parseVal (fuel + 1) ([braceO, braceC] ++ rest) = _
          simp only [List.cons_append, List.nil_append]
          exact parseVal_obj_empty fuel rest
        | cons m ms =>
          obtain ⟨k, v⟩ := m
          obtain ⟨t, hs⟩ := stringifyObj_head k v ms
          have hlenv : (stringifyVal (.obj ((k, v) :: ms))).length
              = (stringifyObj ((k, v) :: ms)).length + 2 := by
            simp [stringifyVal]
          show parseVal (fuel + 1)
              ((braceO :: (stringifyObj ((k, v) :: ms) ++ [braceC])) ++ rest) = _
          rw [show (braceO :: (stringifyObj ((k, v) :: ms) ++ [braceC])) ++ rest
              = braceO :: ('"' :: (t ++ braceC :: rest)) from by rw [hs]; simp]
          rw [parseVal_obj_step fuel '"' _ (by decide)]
          rw [show '"' :: (t ++ braceC :: rest)
              = stringifyObj ((k, v) :: ms) ++ braceC :: rest from by rw [hs]; simp]
          rw [ih3 ((k, v) :: ms) rest (by simp) (by omega)]
    · intro l rest hne hlen
      cases l with
      | nil => exact absurd rfl hne
      | cons v vs =>
        cases vs with
        | nil =>
          have hl1 : (stringifyArr [v]).length = (stringifyVal v).length := by
            simp [stringifyArr]
          show parseElems (fuel + 1) (stringifyArr [v] ++ ']' :: rest) = _
          rw [show stringifyArr [v] = stringifyVal v from by simp [stringifyArr],
            parseElems_cons,
            ih1 v (']' :: rest) (by omega) (noDigitHead_cons _ _ (by decide))]
          simp
        | cons w ws =>
          have hsv := stringifyVal_len_pos v
          have hsa := stringifyArr_len_pos w ws
          have hlen3 : (stringifyArr (v :: w :: ws)).length
              = (stringifyVal v).length + 1 + (stringifyArr (w :: ws)).length := by
            simp [stringifyArr]
            omega
          show parseElems (fuel + 1) (stringifyArr (v :: w :: ws) ++ ']' :: rest) = _
          rw [show stringifyArr (v :: w :: ws) ++ ']' :: rest
              = stringifyVal v ++ (',' :: (stringifyArr (w :: ws) ++ ']' :: rest)) from by
            simp [stringifyArr]]
          rw [parseElems_cons, ih1 v _ (by omega) (noDigitHead_cons _ _ (by decide))]
          simp [ih2 (w :: ws) rest (by simp) (by omega)]
    · intro ms rest hne hlen
      cases ms with
      | nil => exact absurd rfl hne
      | cons m ms2 =>
        obtain ⟨k, v⟩ := m
        cases ms2 with
        | nil =>
          have hsv := stringifyVal_len_pos v
          have hlq : (stringifyObj [(k, v)]).length
              = (escapeStr k).length + 3 + (stringifyVal v).length := by
            simp [stringifyObj]
            omega
          show parseMembers (fuel + 1) (stringifyObj [(k, v)] ++ braceC :: rest) = _
          rw [show stringifyObj [(k, v)] ++ braceC :: rest
              = '"' :: (escapeStr k ++ '"' :: (':' :: (stringifyVal v ++ braceC :: rest)))
              from by simp [stringifyObj]]
          rw [parseMembers_cons]
          simp only [reduceIte]
          rw [parseJStr_escape]
          simp only [reduceIte]
          rw [ih1 v _ (by omega) (noDigitHead_cons _ _ (by decide))]
          simp [show (braceC = ',') = False from by decide]
        | cons m2 ms3 =>
          obtain ⟨k2, v2⟩ := m2
          have hsv := stringifyVal_len_pos v
          have hso := stringifyObj_len_pos k2 v2 ms3
          have hlq : (stringifyObj ((k, v) :: (k2, v2) :: ms3)).length
              = (escapeStr k).length + 4 + (stringifyVal v).length
                + (stringifyObj ((k2, v2) :: ms3)).length := by
            simp [stringifyObj]
            omega
          show parseMembers (fuel + 1)
              (stringifyObj ((k, v) :: (k2, v2) :: ms3) ++ braceC :: rest) = _
          rw [show stringifyObj ((k, v) :: (k2, v2) :: ms3) ++ braceC :: rest
              = '"' :: (escapeStr k ++ '"' :: (':' :: (stringifyVal v
                  ++ ',' :: (stringifyObj ((k2, v2) :: ms3) ++ braceC :: rest))))
              from by simp [stringifyObj]]
          rw [parseMembers_cons]
          simp only [reduceIte]
          rw [parseJStr_escape]
          simp only [reduceIte]
          rw [ih1 v _ (by omega) (noDigitHead_cons _ _ (by decide))]
          simp [ih3 ((k2, v2) :: ms3) rest (by simp) (by omega)]

theorem jparse_stringify (v : JsValue) : jparse (stringifyVal v) = some v := by
  have h := (parse_print_aux ((stringifyVal v).length + 1)).1 v [] (by omega) trivial
  rw [List.append_nil] at h
  simp [jparse, h]

/-- Key `response`. -/
def respKey : JStr := chars ("response")

/-- Key `textView`. -/
def tvKey : JStr := chars ("textView")

/-- Key `dashboardView`. -/
def dvKey : JStr := chars ("dashboardView")

/-- Key `module_outputs`. -/
def moKey : JStr := chars ("module_outputs")

/-- Key `labels`. -/
def labelsKey : JStr := chars ("labels")

/-- Key `values`. -/
def valuesKey : JStr := chars ("values")

/-- Key `data`. -/
def dataKey : JStr := chars ("data")

/-- Key `type`. -/
def typeKey : JStr := chars ("type")

/-- Key `message`. -/
def msgKey : JStr := chars ("message")

mutual

/-- JavaScript `ToString` of a value, as `JSON.parse` applies it to a
non-string argument (arrays join element strings with commas, `null`
elements become empty, objects print as `[object Object]`). -/
def coerceToString : JsValue → JStr
  | .null => chars ("null")
  | .bool true => chars ("true")
  | .bool false => chars ("false")
  | .num n => printInt n
  | .str s => s
  | .arr l => coerceListToString l
  | .obj _ => chars ("[object Object]")

/-- Body of `Array.prototype.toString`. -/
def coerceListToString : List JsValue → JStr
  | [] => []
  | [.null] => []
  | [v] => coerceToString v
  | .null :: w :: vs => ',' :: coerceListToString (w :: vs)
  | v :: w :: vs => coerceToString v ++ ',' :: coerceListToString (w :: vs)

end

/-- The legacy-branch fallback reply
`\x7b textView: data.response, dashboardView: data.module_outputs || \x7b\x7d \x7d`
(ChatInterfaceWithSidebar lines 160-163 and 166-169). -/
def legacyFallback (data rv : JsValue) : JsValue :=
  .obj [(tvKey, rv), (dvKey, jsOr (getF data moKey) (.obj []))]

/-- Response normalization of `sendMessage` (lines 152-174).  `none` models
a TypeError escaping to the surrounding catch (`data.response` on a null
body).  The `parsedResponse.textView` access throwing (parsed value `null`)
is caught by the inner catch and falls back, as in the source. -/
def normalizeAgentReply (data : JsValue) : Option JsValue :=
  match getF data respKey with
  | .throwsF => none
  | rf =>
    if truthyF rf then
      let rv := rf.valOf
      match jparse (coerceToString rv) with
      | none => some (legacyFallback data rv)
      | some p =>
        match getF p tvKey with
        | .throwsF => some (legacyFallback data rv)
        | tf => if truthyF tf then some p else some (legacyFallback data rv)
    else some data

/-- Outcome of one awaited collaborator call. -/
inductive Collab (α : Type) where
  | throws : Collab α
  | returns : α → Collab α

/-- The `fetch` response surface that `sendMessage` inspects. -/
structure FetchResult where
  ok : Bool

/-- Component state read by `sendMessage` at invocation time. -/
structure ChatState where
  inputMessage : JStr
  isLoading : Bool
  userPresent : Bool
  currentSessionId : Option JStr
  messageIds : List JStr

/-- Outcomes of the external collaborators awaited by one `sendMessage`
invocation. -/
structure SendEnv where
  createSession : Collab (Option JStr)
  saveUser : Collab Unit
  updateTitle : Collab Unit
  fetchResp : Collab FetchResult
  jsonBody : Collab JsValue
  saveAssistant : Collab Unit
  saveApology : Collab Unit

/-- Observable outcome of a settled `sendMessage` invocation: the final
in-flight flag, whether the invocation fulfilled (`true`) or rejected with
an exception (`false`), the persisted assistant content if any, and whether
the error banner was set. -/
structure SendOutcome where
  isLoading : Bool
  settled : Bool
  assistantContent : Option JStr
  errorBanner : Bool

/-- Common whitespace characters removed by `String.prototype.trim`. -/
def isWsC (c : Char) : Bool :=
  c.toNat = 32 || c.toNat = 9 || c.toNat = 10 || c.toNat = 13

/-- Trimming by `String.prototype.trim` on both ends. -/
def trimWs (s : JStr) : JStr := ((s.dropWhile isWsC).reverse.dropWhile isWsC).reverse

/-- Apostrophe character. -/
def apoC : Char := Char.ofNat 39

/-- The fixed apology text saved as the assistant message on the catch path
(line 189). -/
def apologyChars : JStr :=
  chars ("I") ++ [apoC] ++ chars ("m sorry, I") ++ [apoC] ++
    chars ("m having trouble connecting right now. Please try again in a moment.")

/-- The catch block of `sendMessage` (lines 179-190): sets the error
banner, saves the apology as the assistant message, and the finally block
clears the in-flight flag even when that save itself throws. -/
def dispatchCatch (env : SendEnv) : SendOutcome :=
  match env.saveApology with
  | .throws => ⟨false, false, none, true⟩
  | .returns _ => ⟨false, true, some apologyChars, true⟩

/-- The try block of `sendMessage` (lines 111-178): fetch, status check,
body parse, normalization, assistant save; every failure reaches the catch
block, and the finally block clears the in-flight flag. -/
def dispatchTry (env : SendEnv) : SendOutcome :=
  match env.fetchResp with
  | .throws => dispatchCatch env
  | .returns f =>
    if f.ok = false then dispatchCatch env
    else
      match env.jsonBody with
      | .throws => dispatchCatch env
      | .returns data =>
        match normalizeAgentReply data with
        | none => dispatchCatch env
        | some reply =>
          match env.saveAssistant with
          | .throws => dispatchCatch env
          | .returns _ => ⟨false, true, some (stringifyVal reply), false⟩

/-- Model of `sendMessage` (lines 88-194).  The guard, session step, the user-message
save and the title update run before/outside the guarded try block; the
in-flight flag is set to `true` after the session step and cleared only by
the finally block inside `dispatchTry`. -/
def sendMessage (st : ChatState) (env : SendEnv) : SendOutcome :=
  if trimWs st.inputMessage = [] ∨ st.isLoading = true ∨ st.userPresent = false then
    ⟨st.isLoading, true, none, false⟩
  else
    match
      (match st.currentSessionId with
       | some sid => if sid = [] then env.createSession else Collab.returns (some sid)
       | none => env.createSession) with
    | .throws => ⟨st.isLoading, false, none, false⟩
    | .returns none => ⟨st.isLoading, true, none, false⟩
    | .returns (some sid) =>
      if sid = [] then ⟨st.isLoading, true, none, false⟩
      else
        match env.saveUser with
        | .throws => ⟨true, false, none, false⟩
        | .returns _ =>
          match
            (if (st.messageIds.filter
                  (fun i => ((chars ("welcome-")).isPrefixOf i) = false)).length ≤ 1
             then env.updateTitle else Collab.returns ()) with
          | .throws => ⟨true, false, none, false⟩
          | .returns _ => dispatchTry env

/-- Per-message view-mode preference. -/
inductive ViewMode where
  | text : ViewMode
  | dashboard : ViewMode

/-- What `renderMessageContent` renders: the dashboard renderer, the main
markdown path (raw-HTML passthrough enabled), or the catch-path fallback
markdown of the raw content. -/
inductive RenderResult where
  | dashboardR : JsField → RenderResult
  | markdownR : JsValue → RenderResult
  | fallbackR : JStr → RenderResult

/-- The dual parse of `renderMessageContent` (lines 212-227): a first
`JSON.parse`; if it throws, `JSON.parse(JSON.parse(content))` — whose inner
parse re-parses the same string — and if that throws too the whole attempt
fails. -/
def parseContentStep (c : JStr) : Option JsValue :=
  match jparse c with
  | some v => some v
  | none =>
    match jparse c with
    | some v => jparse (coerceToString v)
    | none => none

/-- Shape classification of `renderMessageContent` (lines 229-264),
yielding `textContent` and `dashboardContent`; `none` models an exception
reaching the outer catch (parse failure, or a field access on `null`). -/
def classifyContent (content : JStr) : Option (JsValue × JsField) :=
  match parseContentStep content with
  | none => none
  | some parsed =>
    match getF parsed tvKey with
    | .throwsF => none
    | tf =>
      if truthyF tf then
        some (tf.valOf, getF parsed dvKey)
      else
        match getF parsed respKey with
        | .throwsF => none
        | rf =>
          if truthyF rf then
            let rv := rf.valOf
            let inner : Option (JsValue × JsField) :=
              match jparse (coerceToString rv) with
              | none => none
              | some rj =>
                match getF rj tvKey with
                | .throwsF => none
                | tf2 => if truthyF tf2 then some (tf2.valOf, getF rj dvKey) else none
            let tcdc : JsValue × JsField :=
              match inner with
              | some p => p
              | none => (rv, .valF .null)
            let dc2 : JsField :=
              if !truthyF tcdc.2 && truthyF (getF parsed moKey) then getF parsed moKey
              else tcdc.2
            some (tcdc.1, dc2)
          else some (.str content, .valF .null)

/-- Model of `renderMessageContent` (lines 207-307): total — the outer catch turns
any exception into the raw-markdown fallback; the dashboard renders only
when requested and `dashboardContent` is truthy. -/
def renderMessageContent (vm : ViewMode) (content : JStr) : RenderResult :=
  match classifyContent content with
  | none => .fallbackR content
  | some (tc, dc) =>
    match vm with
    | .dashboard => if truthyF dc then .dashboardR dc else .markdownR tc
    | .text => .markdownR tc

/-- Element access `data.values?.[index] ?? 0` (DashboardRenderer line 50): a missing or
`null` element defaults to `0`. -/
def chartVal (vs : List JsValue) (i : Nat) : JsValue :=
  match vs[i]? with
  | none => .num 0
  | some .null => .num 0
  | some v => v

/-- Model of `transformChartData` (DashboardRenderer lines 44-52). -/
def transformChartData (data : JsField) : List (JsValue × JsValue) :=
  match data with
  | .valF dv =>
    if truthy dv then
      match getF dv labelsKey, getF dv valuesKey with
      | .valF (.arr ls), .valF (.arr vs) =>
        if ls.length = 0 then []
        else ls.mapIdx (fun i l => (l, chartVal vs i))
      | _, _ => []
    else []
  | _ => []

/-- The chart card of DashboardRenderer lines 92-94: skipped (`none`)
exactly when the transformed point list is empty. -/
def renderChartCard (dataF : JsField) : Option (List (JsValue × JsValue)) :=
  let td := transformChartData dataF
  if td.length = 0 then none else some td

/-- Warning glyph base code point. -/
def warnC : Char := Char.ofNat 0x26A0

/-- Variation selector 16, the second code point of the warning glyph. -/
def vs16C : Char := Char.ofNat 0xFE0F

/-- Success glyph code point. -/
def checkC : Char := Char.ofNat 0x2705

/-- The two-code-point warning glyph the source writes in
`alert.startsWith(...)`. -/
def warnGlyph : JStr := [warnC, vs16C]

/-- Alert severity handed to the Alert component. -/
inductive AlertVariant where
  | destructiveV : AlertVariant
  | defaultV : AlertVariant

/-- Model of `getAlertVariant` (DashboardRenderer lines 55-60); `none` models the
TypeError of `alert.type` on a null alert. -/
def getAlertVariant (alert : JsValue) : Option AlertVariant :=
  match alert with
  | .str s => some (if warnGlyph.isPrefixOf s then .destructiveV else .defaultV)
  | .null => none
  | v =>
    some
      (match getF v typeKey with
       | .valF (.str t) =>
         if t = chars ("error") ∨ t = chars ("warning") then .destructiveV else .defaultV
       | _ => .defaultV)

/-- The global regex replace of DashboardRenderer line 65: removes every
occurrence of the three code points of the character class. -/
def stripGlyphs (s : JStr) : JStr :=
  s.filter (fun c => !(c == warnC || c == vs16C || c == checkC))

/-- Model of `getAlertMessage` (DashboardRenderer lines 63-68); a throw is
modelled by `throwsF` for a null alert. -/
def getAlertMessage (alert : JsValue) : JsField :=
  match alert with
  | .str s => .valF (.str (trimWs (stripGlyphs s)))
  | .null => .throwsF
  | v => getF v msgKey

/-- Truthiness conditional form of `a || b` on a field. -/
theorem jsOr_eq_ite (f : JsField) (d : JsValue) :
    jsOr f d = if truthyF f then f.valOf else d := by
  cases f with
  | throwsF => rfl
  | undefF => rfl
  | valF v => simp [jsOr, truthyF, JsField.valOf]

/-- Presence of a field on an object value (the reading the claim uses). -/
def hasField (v : JsValue) (k : JStr) : Bool :=
  match v with
  | .obj l => (lookupField l k).isSome
  | _ => false

/-- The fallback reply claim C1 predicts: raw `response` string as
`textView`, `module_outputs` if present else the empty object. -/
def c1ClaimFallback (body : JsValue) (rs : JStr) : JsValue :=
  .obj [(tvKey, .str rs),
    (dvKey,
      match body with
      | .obj l =>
        match lookupField l moKey with
        | some m => m
        | none => .obj []
      | _ => .obj [])]

/-- The normalized reply claim C1 predicts for a body whose `response`
field holds the string `rs`: the parsed value itself whenever it has a
`textView` field (present, regardless of truthiness), else the fallback. -/
def c1ClaimReply (body : JsValue) (rs : JStr) : JsValue :=
  match jparse rs with
  | some p => if hasField p tvKey then p else c1ClaimFallback body rs
  | none => c1ClaimFallback body rs

/-- Body whose `response` is the JSON text of an object with a present but
empty `textView` field. -/
def c1Body : JsValue :=
  .obj [(respKey, .str (chars ("\x7b\"textView\":\"\"\x7d")))]

/-- Claim C1 counterexample: for a body whose `response` parses to an
object that has a `textView` field holding the empty string, the claim
predicts the parsed value itself, but the code tests `parsedResponse.textView`
for truthiness and takes the fallback, so the persisted reply is the
fallback object, not the parsed value. -/
theorem c1_counterexample :
    normalizeAgentReply c1Body =
      some (.obj [(tvKey, .str (chars ("\x7b\"textView\":\"\"\x7d"))), (dvKey, .obj [])]) ∧
    c1ClaimReply c1Body (chars ("\x7b\"textView\":\"\"\x7d")) = .obj [(tvKey, .str [])] ∧
    (JsValue.obj [(tvKey, .str (chars ("\x7b\"textView\":\"\"\x7d"))), (dvKey, .obj [])]) ≠
      .obj [(tvKey, .str [])] := by
  refine ⟨rfl, rfl, ?_⟩
  intro h
  simp [chars] at h

/-- The fallback reply of the amended claim C1: every condition is the
truthiness test the source performs. -/
def c1AmendedFallback (body : JsValue) (rs : JStr) : JsValue :=
  .obj [(tvKey, .str rs),
    (dvKey, if truthyF (getF body moKey) then (getF body moKey).valOf else .obj [])]

/-- The normalized reply of the amended claim C1: the parsed value is kept
exactly when its `textView` field is truthy (a throwing access on a parsed
`null` is caught and falls back as well). -/
def c1AmendedReply (body : JsValue) (rs : JStr) : JsValue :=
  match jparse rs with
  | some p => if truthyF (getF p tvKey) then p else c1AmendedFallback body rs
  | none => c1AmendedFallback body rs

/-- Claim C1 amended: for every body object whose `response` field holds a
non-empty (truthy) string, normalization yields the parsed value when it
parses as JSON with a truthy `textView`, and otherwise the fallback
`\x7b textView: raw response, dashboardView: module_outputs if truthy else
\x7b\x7d \x7d`. -/
theorem c1_normalization_amended (body : JsValue) (l : List (JStr × JsValue)) (rs : JStr)
    (hb : body = .obj l) (hresp : lookupField l respKey = some (.str rs)) (hne : rs ≠ []) :
    normalizeAgentReply body = some (c1AmendedReply body rs) := by
  subst hb
  have hgf : getF (.obj l) respKey = .valF (.str rs) := by simp [getF, hresp]
  have hfb : legacyFallback (.obj l) (.str rs) = c1AmendedFallback (.obj l) rs := by
    simp [legacyFallback, c1AmendedFallback, jsOr_eq_ite]
  have htr : truthy (JsValue.str rs) = true := by simp [truthy, hne]
  cases hp : jparse rs with
  | none =>
    unfold normalizeAgentReply c1AmendedReply
    simp [hgf, truthyF, htr, JsField.valOf, coerceToString, hp, hfb]
  | some p =>
    cases hg : getF p tvKey with
    | throwsF =>
      unfold normalizeAgentReply c1AmendedReply
      simp [hgf, truthyF, htr, JsField.valOf, coerceToString, hp, hg, hfb]
    | undefF =>
      unfold normalizeAgentReply c1AmendedReply
      simp [hgf, truthyF, htr, JsField.valOf, coerceToString, hp, hg, hfb]
    | valF w =>
      by_cases hw : truthy w = true
      · unfold normalizeAgentReply c1AmendedReply
        simp [hgf, truthyF, htr, JsField.valOf, coerceToString, hp, hg, hw]
      · unfold normalizeAgentReply c1AmendedReply
        simp [hgf, truthyF, htr, JsField.valOf, coerceToString, hp, hg, hw, hfb]

/-- The spec test vector for the amended claim C1: a plain-text `response`
with `module_outputs` present. -/
def c1WitnessBody : JsValue :=
  .obj [(respKey, .str (chars ("plain text"))),
    (moKey, .obj [(chars ("alerts"), .arr [.str (warnGlyph ++ chars (" watch spend"))])])]

/-- Witness for the amended claim C1 at the spec vector. -/
theorem c1_normalization_amended_witness :
    normalizeAgentReply c1WitnessBody =
      some (c1AmendedReply c1WitnessBody (chars ("plain text"))) :=
  c1_normalization_amended c1WitnessBody _ (chars ("plain text")) rfl rfl (by decide)

/-- Claim C9: the legacy branch is selected by truthiness, not presence:
a body whose `response` field holds any falsy value is classified as the
new shape and the raw body itself becomes the normalized reply, with no
textView fallback.  The second part: the try block then persists exactly
the stringified raw body. -/
theorem c9_falsy_response_verbatim (fields : List (JStr × JsValue)) (rv : JsValue)
    (hresp : lookupField fields respKey = some rv) (hfalsy : truthy rv = false) :
    normalizeAgentReply (.obj fields) = some (.obj fields) ∧
    (∀ env : SendEnv, env.fetchResp = Collab.returns ⟨true⟩ →
      env.jsonBody = Collab.returns (.obj fields) → env.saveAssistant = Collab.returns () →
      (dispatchTry env).assistantContent = some (stringifyVal (.obj fields))) := by
  have hn : normalizeAgentReply (.obj fields) = some (.obj fields) := by
    unfold normalizeAgentReply
    simp [getF, hresp, truthyF, hfalsy]
  refine ⟨hn, fun env hf hj hs => ?_⟩
  unfold dispatchTry
  rw [hf, hj, hs]
  simp [hn]

/-- Witness for claim C9 at `response` the empty string. -/
theorem c9_falsy_response_verbatim_witness :
    normalizeAgentReply (.obj [(respKey, .str [])]) = some (.obj [(respKey, .str [])]) :=
  (c9_falsy_response_verbatim [(respKey, .str [])] (.str []) rfl rfl).1

/-- JSON text of an object with `textView` and `dashboardView`. -/
def c4Inner : JStr := chars ("\x7b\"textView\":\"hi\",\"dashboardView\":\x7b\x7d\x7d")

/-- A doubly-encoded stored content: the JSON string literal whose decoded
value is `c4Inner`. -/
def c4Content : JStr := stringifyVal (.str c4Inner)

/-- Claim C4 evidence (code bug): for doubly-encoded stored content the
first parse already succeeds and yields the inner JSON text as a string, so
the second-parse recovery branch (which only runs when the first parse
threw, and then re-parses the same string) never fires: the content is
classified as Shape C with the raw content as `textContent` and no
dashboard, not as Shape A on the recovered inner object. -/
theorem c4_doubly_encoded_shape_c :
    jparse c4Content = some (.str c4Inner) ∧
    jparse c4Inner =
      some (.obj [(tvKey, .str (chars ("hi"))), (dvKey, .obj [])]) ∧
    classifyContent c4Content = some (.str c4Content, .valF .null) ∧
    renderMessageContent ViewMode.text c4Content = .markdownR (.str c4Content) := by
  exact ⟨rfl, rfl, rfl, rfl⟩

/-- A `NormalizedAgentReply` record as the dispatcher builds it. -/
def mkNormalizedReply (t : JStr) (d : JsValue) : JsValue :=
  .obj [(tvKey, .str t), (dvKey, d)]

/-- Claim C5 amended: for every reply whose `textView` is non-empty
(truthy), stringifying as the dispatcher does and classifying via the
renderer recovers exactly the `textView` string as `textContent` and the
`dashboardView` value as `dashboardContent` (the Shape-A branch). -/
theorem c5_roundtrip_amended (t : JStr) (d : JsValue) (h : t ≠ []) :
    classifyContent (stringifyVal (mkNormalizedReply t d)) =
      some (.str t, .valF d) := by
  have hps : parseContentStep (stringifyVal (mkNormalizedReply t d)) =
      some (mkNormalizedReply t d) := by
    unfold parseContentStep
    simp [jparse_stringify (mkNormalizedReply t d)]
  have hg1 : getF (mkNormalizedReply t d) tvKey = .valF (.str t) := by
    simp [mkNormalizedReply, getF, lookupField,
      show (dvKey = tvKey) = False from by decide]
  have hg2 : getF (mkNormalizedReply t d) dvKey = .valF d := by
    simp [mkNormalizedReply, getF, lookupField,
      show (tvKey = dvKey) = False from by decide]
  unfold classifyContent
  simp [hps, hg1, hg2, truthyF, truthy, h, JsField.valOf]

/-- Witness for the amended claim C5 at a two-character `textView` and an
empty-object `dashboardView`. -/
theorem c5_roundtrip_amended_witness :
    classifyContent (stringifyVal (mkNormalizedReply (chars ("hi")) (.obj []))) =
      some (.str (chars ("hi")), .valF (.obj [])) :=
  c5_roundtrip_amended (chars ("hi")) (.obj []) (by decide)

/-- The dispatcher encoding of a reply whose `textView` is the empty
string. -/
def c5EmptyContent : JStr := stringifyVal (mkNormalizedReply [] (.obj []))

/-- Claim C5 counterexample: with `textView = ""` the renderer's Shape-A
test (`parsedContent.textView` truthy) fails, classification falls through
to Shape C, and `textContent` is the whole raw content instead of the
reply's `textView`, `dashboardContent` null instead of the reply's
`dashboardView`. -/
theorem c5_counterexample :
    classifyContent c5EmptyContent = some (.str c5EmptyContent, .valF .null) ∧
    (JsValue.str c5EmptyContent, (JsField.valF .null)) ≠
      (JsValue.str [], JsField.valF (.obj [])) := by
  refine ⟨rfl, ?_⟩
  intro h
  simp at h

/-- Claim C7: the renderer is total, and whenever the stored content fails
to parse as JSON, or classification raises (a field access on a parsed
`null`), the result is the raw-markdown fallback of the content string. -/
theorem c7_render_fallback (vm : ViewMode) (content : JStr)
    (h : jparse content = none ∨ classifyContent content = none) :
    renderMessageContent vm content = .fallbackR content := by
  have hc : classifyContent content = none := by
    rcases h with h | h
    · unfold classifyContent parseContentStep
      simp [h]
    · exact h
  unfold renderMessageContent
  simp [hc]

/-- Witness for claim C7 at the spec vector, a non-JSON plain string. -/
theorem c7_render_fallback_witness :
    renderMessageContent ViewMode.text (chars ("hello world")) =
      .fallbackR (chars ("hello world")) :=
  c7_render_fallback ViewMode.text (chars ("hello world")) (Or.inl rfl)

/-- The ordered label/value pairing the spec describes: one point per
label, the positional value if there is one (`null` coalesced to `0` as by
`?? 0`), and `0` where the values list has run out. -/
def specZipPad : List JsValue → List JsValue → List (JsValue × JsValue)
  | [], _ => []
  | l :: ls, [] => (l, .num 0) :: specZipPad ls []
  | l :: ls, .null :: vs => (l, .num 0) :: specZipPad ls vs
  | l :: ls, v :: vs => (l, v) :: specZipPad ls vs

/-- Index-function congruence for `mapIdx`. -/
theorem mapIdx_ext {α β : Type} (f g : Nat → α → β) (l : List α)
    (h : ∀ i a, f i a = g i a) : l.mapIdx f = l.mapIdx g := by
  induction l generalizing f g with
  | nil => simp
  | cons a l ih =>
    rw [List.mapIdx_cons, List.mapIdx_cons, h, ih _ _ (fun i b => h (i + 1) b)]

/-- Missing elements default to `0`. -/
theorem chartVal_nil (i : Nat) : chartVal [] i = .num 0 := by
  simp [chartVal]

/-- Shifting the element index past the head. -/
theorem chartVal_cons_succ (v : JsValue) (vs : List JsValue) (i : Nat) :
    chartVal (v :: vs) (i + 1) = chartVal vs i := by
  simp [chartVal]

/-- The positional map of `transformChartData` equals the spec's padded
zip. -/
theorem mapIdx_chartVal (ls : List JsValue) : ∀ vs : List JsValue,
    ls.mapIdx (fun i l => (l, chartVal vs i)) = specZipPad ls vs := by
  induction ls with
  | nil => intro vs; simp [specZipPad]
  | cons l ls ih =>
    intro vs
    rw [List.mapIdx_cons]
    cases vs with
    | nil =>
      rw [show (fun i x => ((x : JsValue), chartVal [] (i + 1))) = fun i x => (x, .num 0)
        from funext fun i => funext fun x => by rw [chartVal_nil]]
      rw [show chartVal [] 0 = .num 0 from chartVal_nil 0]
      have h2 := ih []
      rw [show (fun i x => ((x : JsValue), chartVal [] i)) = fun i x => (x, .num 0)
        from funext fun i => funext fun x => by rw [chartVal_nil]] at h2
      rw [h2]
      rfl
    | cons v vs2 =>
      have hshift : (fun i x => ((x : JsValue), chartVal (v :: vs2) (i + 1)))
          = fun i x => (x, chartVal vs2 i) :=
        funext fun i => funext fun x => by rw [chartVal_cons_succ]
      rw [hshift, ih vs2]
      cases v with
      | null => simp [chartVal, specZipPad]
      | bool b => simp [chartVal, specZipPad]
      | num n => simp [chartVal, specZipPad]
      | str s => simp [chartVal, specZipPad]
      | arr a => simp [chartVal, specZipPad]
      | obj o => simp [chartVal, specZipPad]

/-- Claim C6 amended: when `data` is a truthy object whose `labels` is a
non-empty array and whose `values` is an array, the transformed point list
is the positional zip with `0` substituted for missing values (3 labels and
2 values give 3 points); and a chart card is skipped exactly when the
transformed point list is empty.  (When `values` is absent or not an array
the transform is empty instead — see the counterexample.) -/
theorem c6_chart_zip_amended :
    (∀ (fields : List (JStr × JsValue)) (ls vs : List JsValue),
      lookupField fields labelsKey = some (.arr ls) →
      lookupField fields valuesKey = some (.arr vs) →
      ls ≠ [] →
      transformChartData (.valF (.obj fields)) = specZipPad ls vs) ∧
    (∀ dataF : JsField, renderChartCard dataF = none ↔ transformChartData dataF = []) := by
  constructor
  · intro fields ls vs hl hv hne
    unfold transformChartData
    simp [truthy, getF, hl, hv, hne, mapIdx_chartVal ls vs]
  · intro dataF
    unfold renderChartCard
    constructor
    · intro h
      by_cases hz : (transformChartData dataF).length = 0
      · exact List.length_eq_zero.mp hz
      · simp [hz] at h
    · intro h
      simp [h]

/-- Witness for the amended claim C6 at the spec vector: 3 labels, 2
values. -/
theorem c6_chart_zip_amended_witness :
    transformChartData (.valF (.obj
      [(labelsKey, .arr [.str (chars ("a")), .str (chars ("b")), .str (chars ("c"))]),
       (valuesKey, .arr [.num 5, .num 7])])) =
      specZipPad [.str (chars ("a")), .str (chars ("b")), .str (chars ("c"))]
        [.num 5, .num 7] :=
  c6_chart_zip_amended.1 _ _ _ rfl rfl (by simp)

/-- Chart data with a non-empty `labels` array and no `values` field. -/
def c6NoValuesData : JsField := .valF (.obj [(labelsKey, .arr [.str (chars ("a"))])])

/-- Claim C6 counterexample: a spec with one label and no `values` array —
the claim's pairing, which substitutes 0 for each missing value, predicts
one zero point, but the code's guard returns the empty list (and the chart
is skipped). -/
theorem c6_counterexample :
    transformChartData c6NoValuesData = [] ∧
    specZipPad [.str (chars ("a"))] [] = [(.str (chars ("a")), .num 0)] ∧
    ([] : List (JsValue × JsValue)) ≠ [(.str (chars ("a")), .num 0)] := by
  refine ⟨rfl, rfl, by simp⟩

/-- The well-formedness condition under which `transformChartData`
produces points, written from the claim's enumeration: `data` truthy with
an array, non-empty `labels` and an array `values`. -/
def chartDataWellFormed : JsField → Bool
  | .valF dv =>
    truthy dv &&
      (match getF dv labelsKey, getF dv valuesKey with
       | .valF (.arr ls), .valF (.arr _) => !(ls.length = 0 : Bool)
       | _, _ => false)
  | _ => false

theorem c10_degenerate_chart (dataF : JsField) (h : chartDataWellFormed dataF = false) :
    transformChartData dataF = [] ∧ renderChartCard dataF = none := by
  have ht : transformChartData dataF = [] := by
    cases dataF with
    | throwsF => rfl
    | undefF => rfl
    | valF dv =>
      unfold transformChartData
      unfold chartDataWellFormed at h
      by_cases htr : truthy dv = true
      · simp only [htr, Bool.true_and] at h
        simp only [htr, if_true]
        split
        · next ls vs heq1 heq2 =>
          rw [heq1, heq2] at h
          simp at h
          simp [h]
        · rfl
      · simp [htr]
  exact ⟨ht, by simp [renderChartCard, ht]⟩

/-- Witness for claim C10: non-empty `labels` but no `values` array
produces no chart rather than a chart of zeros. -/
theorem c10_degenerate_chart_witness :
    transformChartData c6NoValuesData = [] ∧ renderChartCard c6NoValuesData = none :=
  c10_degenerate_chart c6NoValuesData rfl

/-- Claim C8: string alerts map a leading warning glyph to the destructive
severity, otherwise default, and display the string with every warning and
success glyph removed and the result trimmed (the displayed message
contains no glyph code point); object alerts map `type` equal to `error`
or `warning` to destructive and everything else — `info` or an absent
type — to default, and display the `message` field unchanged. -/
theorem c8_alert_mapping (s : JStr) (fields : List (JStr × JsValue)) :
    getAlertVariant (.str s) =
      some (if warnGlyph.isPrefixOf s then .destructiveV else .defaultV) ∧
    getAlertMessage (.str s) = .valF (.str (trimWs (stripGlyphs s))) ∧
    (stripGlyphs s).all (fun c => !(c == warnC) && !(c == checkC)) = true ∧
    getAlertVariant (.obj fields) =
      some
        (match lookupField fields typeKey with
         | some (.str t) =>
           if t = chars ("error") ∨ t = chars ("warning") then AlertVariant.destructiveV
           else AlertVariant.defaultV
         | _ => AlertVariant.defaultV) ∧
    getAlertMessage (.obj fields) = getF (.obj fields) msgKey := by
  refine ⟨rfl, rfl, ?_, ?_, rfl⟩
  · rw [List.all_eq_true]
    intro c hc
    have hp := (List.mem_filter.mp hc).2
    simp only [Bool.not_eq_true', Bool.or_eq_false_iff] at hp
    simp [hp.1, hp.2]
  · cases hl : lookupField fields typeKey with
    | none => simp [getAlertVariant, getF, hl]
    | some v => cases v <;> simp [getAlertVariant, getF, hl]

/-- The catch block always leaves the in-flight flag cleared (the finally
block runs even when the apology save throws). -/
theorem dispatchCatch_isLoading (env : SendEnv) : (dispatchCatch env).isLoading = false := by
  unfold dispatchCatch
  cases env.saveApology with
  | throws => rfl
  | returns u => rfl

/-- Every outcome of the guarded try block leaves the in-flight flag
cleared. -/
theorem dispatchTry_isLoading (env : SendEnv) : (dispatchTry env).isLoading = false := by
  unfold dispatchTry
  split
  · exact dispatchCatch_isLoading env
  · split
    · exact dispatchCatch_isLoading env
    · split
      · exact dispatchCatch_isLoading env
      · split
        · exact dispatchCatch_isLoading env
        · split
          · exact dispatchCatch_isLoading env
          · rfl

/-- Claim C3 amended: starting from a non-loading state, the in-flight
flag is false after `sendMessage` settles for every outcome of the fetch,
the body parse, the normalization and the assistant-message saves,
provided the user-message save and the session-title update — the two
awaited collaborator calls that sit after the flag is set but outside the
try/finally — do not throw. -/
theorem c3_loading_amended (st : ChatState) (env : SendEnv)
    (h0 : st.isLoading = false) (h1 : env.saveUser ≠ Collab.throws)
    (h2 : env.updateTitle ≠ Collab.throws) :
    (sendMessage st env).isLoading = false := by
  unfold sendMessage
  split
  · exact h0
  · split
    · exact h0
    · exact h0
    · split
      · exact h0
      · split
        · next heq => exact absurd heq h1
        · split
          · next heq =>
            by_cases hc :
                (st.messageIds.filter
                  (fun i => ((chars ("welcome-")).isPrefixOf i) = false)).length ≤ 1
            · rw [if_pos hc] at heq
              exact absurd heq h2
            · rw [if_neg hc] at heq
              exact Collab.noConfusion heq
          · exact dispatchTry_isLoading env

/-- A state that passes the initial guards of `sendMessage`. -/
def readyState : ChatState :=
  ⟨chars ("hi"), false, true, some (chars ("s")), []⟩

/-- A collaborator environment in which the user-message save throws. -/
def envUserSaveThrows : SendEnv :=
  ⟨.returns none, .throws, .returns (), .returns ⟨true⟩, .returns (.obj []),
    .returns (), .returns ()⟩

/-- Claim C3 counterexample: the user-message save (awaited after the
in-flight flag is set but outside the try/finally) throws, the invocation
settles by rejection, and the flag is still set. -/
theorem c3_counterexample :
    (sendMessage readyState envUserSaveThrows).isLoading = true ∧
    (sendMessage readyState envUserSaveThrows).settled = false := ⟨rfl, rfl⟩

/-- A collaborator environment in which every call succeeds; the agent
body is a legacy-shape object. -/
def envAllOk : SendEnv :=
  ⟨.returns none, .returns (), .returns (), .returns ⟨true⟩,
    .returns (.obj [(respKey, .str (chars ("yo")))]), .returns (), .returns ()⟩

/-- Witness for the amended claim C3: a full successful dispatch from a
ready state ends with the flag cleared. -/
theorem c3_loading_amended_witness :
    (sendMessage readyState envAllOk).isLoading = false :=
  c3_loading_amended readyState envAllOk rfl
    (fun h => Collab.noConfusion h) (fun h => Collab.noConfusion h)

/-- The persisted assistant content of one invocation is either absent or
the content the try block persists. -/
theorem sendMessage_content (st : ChatState) (env : SendEnv) :
    (sendMessage st env).assistantContent = none ∨
    (sendMessage st env).assistantContent = (dispatchTry env).assistantContent := by
  unfold sendMessage
  split
  · exact Or.inl rfl
  · split
    · exact Or.inl rfl
    · exact Or.inl rfl
    · split
      · exact Or.inl rfl
      · split
        · exact Or.inl rfl
        · split
          · exact Or.inl rfl
          · exact Or.inr rfl

/-- The try block persists nothing, the apology, or the stringified
normalization result of the parsed body. -/
theorem dispatchTry_content (env : SendEnv) :
    (dispatchTry env).assistantContent = none ∨
    (dispatchTry env).assistantContent = some apologyChars ∨
    (∃ data r, env.jsonBody = Collab.returns data ∧ normalizeAgentReply data = some r ∧
      (dispatchTry env).assistantContent = some (stringifyVal r)) := by
  have hc : (dispatchCatch env).assistantContent = none ∨
      (dispatchCatch env).assistantContent = some apologyChars := by
    unfold dispatchCatch
    cases env.saveApology with
    | throws => exact Or.inl rfl
    | returns u => exact Or.inr rfl
  unfold dispatchTry
  split
  · rcases hc with h | h
    · exact Or.inl h
    · exact Or.inr (Or.inl h)
  · split
    · rcases hc with h | h
      · exact Or.inl h
      · exact Or.inr (Or.inl h)
    · split
      · rcases hc with h | h
        · exact Or.inl h
        · exact Or.inr (Or.inl h)
      · next data hj =>
        split
        · rcases hc with h | h
          · exact Or.inl h
          · exact Or.inr (Or.inl h)
        · next reply hn =>
          split
          · rcases hc with h | h
            · exact Or.inl h
            · exact Or.inr (Or.inl h)
          · exact Or.inr (Or.inr ⟨data, reply, hj, hn, rfl⟩)

/-- The `textView` slot of the legacy fallback holds the raw response
value. -/
theorem getF_legacyFallback_tv (data rv : JsValue) :
    getF (legacyFallback data rv) tvKey = .valF rv := by
  simp [legacyFallback, getF, lookupField, show (dvKey = tvKey) = False from by decide]

/-- Computation rule for the legacy branch of the normalization. -/
theorem normalize_valF (data rv : JsValue) (hgf : getF data respKey = .valF rv)
    (ht : truthy rv = true) :
    normalizeAgentReply data =
      match jparse (coerceToString rv) with
      | none => some (legacyFallback data rv)
      | some p =>
        match getF p tvKey with
        | JsField.throwsF => some (legacyFallback data rv)
        | tf => if truthyF tf then some p else some (legacyFallback data rv) := by
  unfold normalizeAgentReply
  rw [hgf]
  simp [truthyF, ht, JsField.valOf]

/-- Whenever the body's `response` field is truthy, the normalization
result has a truthy `textView` (either the parsed value kept by the truthy
test, or the fallback whose `textView` is the truthy response value). -/
theorem normalize_textView_truthy (data r : JsValue)
    (hn : normalizeAgentReply data = some r)
    (ht : truthyF (getF data respKey) = true) :
    truthyF (getF r tvKey) = true := by
  cases hgf : getF data respKey with
  | throwsF => rw [hgf] at ht; exact absurd ht (by simp [truthyF])
  | undefF => rw [hgf] at ht; exact absurd ht (by simp [truthyF])
  | valF rv =>
    rw [hgf] at ht
    simp only [truthyF] at ht
    rw [normalize_valF data rv hgf ht] at hn
    cases hp : jparse (coerceToString rv) with
    | none =>
      simp only [hp, Option.some.injEq] at hn
      rw [← hn, getF_legacyFallback_tv]
      simpa [truthyF] using ht
    | some p =>
      simp only [hp] at hn
      cases hg : getF p tvKey with
      | throwsF =>
        simp only [hg, Option.some.injEq] at hn
        rw [← hn, getF_legacyFallback_tv]
        simpa [truthyF] using ht
      | undefF =>
        simp only [hg, truthyF, Bool.false_eq_true, if_false, Option.some.injEq] at hn
        rw [← hn, getF_legacyFallback_tv]
        simpa [truthyF] using ht
      | valF w =>
        by_cases hw : truthy w = true
        · simp only [hg, truthyF, hw, if_true, Option.some.injEq] at hn
          rw [← hn, hg]
          simpa [truthyF] using hw
        · simp only [hg, truthyF, hw, Bool.false_eq_true, if_false,
            Option.some.injEq] at hn
          rw [← hn, getF_legacyFallback_tv]
          simpa [truthyF] using ht

/-- Claim C2 amended: whatever a settled `sendMessage` invocation persists
as the assistant message is either the fixed apology string, persisted
raw (not JSON-stringified), or the JSON-stringification of the
normalization result of the parsed body — and the latter is guaranteed to
carry a truthy `textView` only when the body's `response` field is truthy;
with a falsy or absent `response` the raw body is stringified verbatim. -/
theorem c2_persisted_amended (st : ChatState) (env : SendEnv) (c : JStr)
    (h : (sendMessage st env).assistantContent = some c) :
    c = apologyChars ∨
      ∃ data r, env.jsonBody = Collab.returns data ∧
        normalizeAgentReply data = some r ∧ c = stringifyVal r ∧
        (truthyF (getF data respKey) = true → truthyF (getF r tvKey) = true) := by
  rcases sendMessage_content st env with hsc | hsc
  · rw [hsc] at h
    exact absurd h (by simp)
  · rw [hsc] at h
    rcases dispatchTry_content env with hd | hd | ⟨data, r, hj, hn, hd⟩
    · rw [hd] at h
      exact absurd h (by simp)
    · rw [hd] at h
      injection h with h
      exact Or.inl h.symm
    · rw [hd] at h
      injection h with h
      exact Or.inr ⟨data, r, hj, hn, h.symm,
        fun ht => normalize_textView_truthy data r hn ht⟩

/-- A collaborator environment in which the fetch rejects (network
failure). -/
def envNetworkFail : SendEnv :=
  ⟨.returns none, .returns (), .returns (), .throws, .returns .null,
    .returns (), .returns ()⟩

/-- Claim C2 counterexample: on a network failure the persisted assistant
content is the raw apology string, which is not the JSON-stringification
of any value at all (its parse fails), in particular not of a
NormalizedAgentReply with `textView` present. -/
theorem c2_counterexample :
    (sendMessage readyState envNetworkFail).assistantContent = some apologyChars ∧
    ∀ r : JsValue, stringifyVal r ≠ apologyChars := by
  constructor
  · rfl
  · intro r hr
    have h1 := jparse_stringify r
    rw [hr] at h1
    rw [show jparse apologyChars = none from rfl] at h1
    exact Option.noConfusion h1

/-- The reply the all-success environment persists. -/
def envAllOkReply : JsValue :=
  legacyFallback (.obj [(respKey, .str (chars ("yo")))]) (.str (chars ("yo")))

/-- Witness for the amended claim C2 on the all-success environment. -/
theorem c2_persisted_amended_witness :
    stringifyVal envAllOkReply = apologyChars ∨
      ∃ data r, envAllOk.jsonBody = Collab.returns data ∧
        normalizeAgentReply data = some r ∧ stringifyVal envAllOkReply = stringifyVal r ∧
        (truthyF (getF data respKey) = true → truthyF (getF r tvKey) = true) :=
  c2_persisted_amended readyState envAllOk (stringifyVal envAllOkReply) rfl
